import Mathlib

/-!
Verification of the fithub fitness-tracking backend (goals and nutrition
aggregation layer) against its natural-language specification.

The embedding models the persistent store as Lean lists of records, one
structure per Django model, and each viewset action as a pure function over
those lists.  Django querysets (filter / order_by / first / get) are embedded
as list filters, insertion sort and list lookups.  Numeric values that are
Python floats or decimals are modelled as rationals; timestamps and dates are
integers (a timestamp's calendar date is its floor-division by 86400).
-/

namespace Fithub

/-- A row of the goals_goal table: owner identity, category, target date,
notes and the active flag (goals/models via goals/serializers fields). -/
structure Goal where
  id : Nat
  user : Nat
  goal_type : String
  target_date : Int
  notes : String
  is_active : Bool
deriving DecidableEq

/-- A row of the nutrition_diet table: owner identity, name and the active
flag (the macro-target columns are irrelevant to the claims and omitted). -/
structure Diet where
  id : Nat
  user : Nat
  name : String
  is_active : Bool
deriving DecidableEq

/-- Embeds the first statement of GoalViewSet.activate,
Goal.objects.filter(user=request.user, is_active=True).update(is_active=False):
a single UPDATE clearing the active flag on all of the owner's active rows. -/
def clearActiveGoals (db : List Goal) (u : Nat) : List Goal :=
  db.map fun g =>
    if g.user = u ∧ g.is_active = true then { g with is_active := false } else g

/-- Embeds goal.is_active = True; goal.save() in GoalViewSet.activate: the row
with the target primary key is rewritten with its active flag set. -/
def setActiveGoal (db : List Goal) (gid : Nat) : List Goal :=
  db.map fun g => if g.id = gid then { g with is_active := true } else g

/-- GoalViewSet.activate (goals/api.py lines 27-34): clear the active flag on
all of the owner's active goals, then set it on the target row. -/
def activateGoal (db : List Goal) (u : Nat) (gid : Nat) : List Goal :=
  setActiveGoal (clearActiveGoals db u) gid

/-- Embeds the UPDATE of DietViewSet.activate clearing the owner's active
diets (nutrition/api.py line 34). -/
def clearActiveDiets (db : List Diet) (u : Nat) : List Diet :=
  db.map fun d =>
    if d.user = u ∧ d.is_active = true then { d with is_active := false } else d

/-- Embeds diet.is_active = True; diet.save() in DietViewSet.activate. -/
def setActiveDiet (db : List Diet) (did : Nat) : List Diet :=
  db.map fun d => if d.id = did then { d with is_active := true } else d

/-- DietViewSet.activate (nutrition/api.py lines 30-37): clear the active flag
on all of the owner's active diets, then set it on the target row. -/
def activateDiet (db : List Diet) (u : Nat) (did : Nat) : List Diet :=
  setActiveDiet (clearActiveDiets db u) did

theorem clearActiveGoals_cleared {db : List Goal} {u : Nat} {g : Goal}
    (hg : g ∈ clearActiveGoals db u) (hu : g.user = u) : g.is_active = false := by
  rcases List.mem_map.1 hg with ⟨g0, _, rfl⟩
  by_cases hact : g0.user = u ∧ g0.is_active = true
  · simp [hact]
  · simp only [if_neg hact] at hu ⊢
    rcases Bool.eq_false_or_eq_true g0.is_active with ht | hf
    · exact absurd ⟨hu, ht⟩ hact
    · exact hf

theorem activateGoal_mem_spec {db : List Goal} {u gid : Nat} {g : Goal}
    (hg : g ∈ activateGoal db u gid) :
    (g.id = gid → g.is_active = true) ∧
    (g.user = u → g.id ≠ gid → g.is_active = false) := by
  rcases List.mem_map.1 hg with ⟨g1, hg1, rfl⟩
  by_cases h0 : g1.id = gid
  · constructor
    · intro _; simp [h0]
    · intro _ hid; exact absurd (by simp [h0]) hid
  · simp only [if_neg h0]
    exact ⟨fun hid => absurd hid h0, fun hu _ => clearActiveGoals_cleared hg1 hu⟩

theorem clearActiveDiets_cleared {db : List Diet} {u : Nat} {d : Diet}
    (hd : d ∈ clearActiveDiets db u) (hu : d.user = u) : d.is_active = false := by
  rcases List.mem_map.1 hd with ⟨d0, _, rfl⟩
  by_cases hact : d0.user = u ∧ d0.is_active = true
  · simp [hact]
  · simp only [if_neg hact] at hu ⊢
    rcases Bool.eq_false_or_eq_true d0.is_active with ht | hf
    · exact absurd ⟨hu, ht⟩ hact
    · exact hf

theorem activateDiet_mem_spec {db : List Diet} {u did : Nat} {d : Diet}
    (hd : d ∈ activateDiet db u did) :
    (d.id = did → d.is_active = true) ∧
    (d.user = u → d.id ≠ did → d.is_active = false) := by
  rcases List.mem_map.1 hd with ⟨d1, hd1, rfl⟩
  by_cases h0 : d1.id = did
  · constructor
    · intro _; simp [h0]
    · intro _ hid; exact absurd (by simp [h0]) hid
  · simp only [if_neg h0]
    exact ⟨fun hid => absurd hid h0, fun hu _ => clearActiveDiets_cleared hd1 hu⟩

/-- C1: after activating goal gid for owner u the target row is active and
every other goal of owner u is inactive; the same after a second back-to-back
activation of gidB; and the same for diet activation.  Hence at most one goal
(and one diet) per owner is active after any activation. -/
theorem c1_activate_single_active
    (gdb : List Goal) (ddb : List Diet) (u gid gidB did : Nat)
    (g gb : Goal) (d : Diet)
    (hg : g ∈ activateGoal gdb u gid)
    (hgb : gb ∈ activateGoal (activateGoal gdb u gid) u gidB)
    (hd : d ∈ activateDiet ddb u did) :
    (g.id = gid → g.is_active = true) ∧
    (g.user = u → g.id ≠ gid → g.is_active = false) ∧
    (gb.id = gidB → gb.is_active = true) ∧
    (gb.user = u → gb.id ≠ gidB → gb.is_active = false) ∧
    (d.id = did → d.is_active = true) ∧
    (d.user = u → d.id ≠ did → d.is_active = false) := by
  obtain ⟨h1, h2⟩ := activateGoal_mem_spec hg
  obtain ⟨h3, h4⟩ := activateGoal_mem_spec hgb
  obtain ⟨h5, h6⟩ := activateDiet_mem_spec hd
  exact ⟨h1, h2, h3, h4, h5, h6⟩

/-- Example goal table: two goals of owner 7, the first one active. -/
def exGoals : List Goal :=
  [⟨1, 7, "weight_loss", 0, "", true⟩, ⟨2, 7, "strength", 30, "", false⟩]

/-- Example diet table: two diets of owner 7, the first one active. -/
def exDiets : List Diet :=
  [⟨1, 7, "cut", true⟩, ⟨2, 7, "bulk", false⟩]

theorem c1_activate_single_active_witness :
    ((⟨1, 7, "weight_loss", 0, "", false⟩ : Goal).id = 2 →
      (⟨1, 7, "weight_loss", 0, "", false⟩ : Goal).is_active = true) ∧
    ((⟨1, 7, "weight_loss", 0, "", false⟩ : Goal).user = 7 →
      (⟨1, 7, "weight_loss", 0, "", false⟩ : Goal).id ≠ 2 →
      (⟨1, 7, "weight_loss", 0, "", false⟩ : Goal).is_active = false) ∧
    ((⟨2, 7, "strength", 30, "", false⟩ : Goal).id = 1 →
      (⟨2, 7, "strength", 30, "", false⟩ : Goal).is_active = true) ∧
    ((⟨2, 7, "strength", 30, "", false⟩ : Goal).user = 7 →
      (⟨2, 7, "strength", 30, "", false⟩ : Goal).id ≠ 1 →
      (⟨2, 7, "strength", 30, "", false⟩ : Goal).is_active = false) ∧
    ((⟨1, 7, "cut", false⟩ : Diet).id = 2 →
      (⟨1, 7, "cut", false⟩ : Diet).is_active = true) ∧
    ((⟨1, 7, "cut", false⟩ : Diet).user = 7 →
      (⟨1, 7, "cut", false⟩ : Diet).id ≠ 2 →
      (⟨1, 7, "cut", false⟩ : Diet).is_active = false) :=
  c1_activate_single_active exGoals exDiets 7 2 1 2
    ⟨1, 7, "weight_loss", 0, "", false⟩ ⟨2, 7, "strength", 30, "", false⟩
    ⟨1, 7, "cut", false⟩ (by decide) (by decide) (by decide)

/-- One database statement issued by GoalViewSet.activate.  The view body runs
two statements — the UPDATE clearing the owner's active goals and the save of
the target row — with no transaction wrapper around them (there is no
transaction.atomic anywhere in goals/api.py), so under concurrency each
statement is individually atomic but the pair is not. -/
inductive ActStep where
  | clear (u : Nat)
  | set (gid : Nat)
deriving DecidableEq

/-- Runs a schedule of database statements against the goals table. -/
def runSteps (db : List Goal) : List ActStep → List Goal
  | [] => db
  | ActStep.clear u :: rest => runSteps (clearActiveGoals db u) rest
  | ActStep.set gid :: rest => runSteps (setActiveGoal db gid) rest

/-- The statement sequence of one call to GoalViewSet.activate. -/
def activationSteps (u : Nat) (gid : Nat) : List ActStep :=
  [ActStep.clear u, ActStep.set gid]

/-- Decides whether zs is an interleaving of xs and ys (order inside each
preserved). -/
def interleaves : List ActStep → List ActStep → List ActStep → Bool
  | [], [], [] => true
  | _, _, [] => false
  | [], [], _ :: _ => false
  | [], y :: ys, z :: zs => y = z ∧ interleaves [] ys zs
  | x :: xs, [], z :: zs => x = z ∧ interleaves xs [] zs
  | x :: xs, y :: ys, z :: zs =>
    (x = z ∧ interleaves xs (y :: ys) zs) ∨ (y = z ∧ interleaves (x :: xs) ys zs)

/-- Number of active goals owned by u. -/
def countActiveGoals (db : List Goal) (u : Nat) : Nat :=
  (db.filter fun g => g.user = u ∧ g.is_active = true).length

/-- Running the two statements of an activate call back-to-back is exactly the
activate operation. -/
theorem runSteps_activation (db : List Goal) (u gid : Nat) :
    runSteps db (activationSteps u gid) = activateGoal db u gid := rfl

/-- C2 (refuted): the clear-then-set sequence of GoalViewSet.activate is NOT
wrapped in a transaction, so the statements of two concurrent activations by
owner 7 (of goals 1 and 2) can interleave as clear, clear, set 1, set 2 — a
genuine interleaving of the two calls — after which BOTH goals are active,
whereas either serial order leaves exactly one active. -/
theorem c2_interleaved_activation_two_active :
    interleaves (activationSteps 7 1) (activationSteps 7 2)
      [ActStep.clear 7, ActStep.clear 7, ActStep.set 1, ActStep.set 2] = true ∧
    countActiveGoals
      (runSteps exGoals
        [ActStep.clear 7, ActStep.clear 7, ActStep.set 1, ActStep.set 2]) 7 = 2 ∧
    countActiveGoals (activateGoal (activateGoal exGoals 7 1) 7 2) 7 = 1 ∧
    countActiveGoals (activateGoal (activateGoal exGoals 7 2) 7 1) 7 = 1 := by
  refine ⟨by decide, by decide, by decide, by decide⟩

/-- A row of the nutrition_ingredient table: name, per-100-unit nutrition
facts, visibility flag and creator (nutrition/api.py IngredientViewSet). -/
structure Ingredient where
  id : Nat
  name : String
  calories : Rat
  proteins : Rat
  fats : Rat
  carbs : Rat
  is_personal : Bool
  created_by : Option Nat
deriving DecidableEq

/-- A row of the nutrition_mealingredient join table, with the joined
ingredient row inlined (mi.ingredient in the code is the FK traversal). -/
structure MealIngredient where
  id : Nat
  meal : Nat
  ingredient : Ingredient
  quantity : Rat
deriving DecidableEq

/-- Embeds meal.mealingredient_set.all(): the association rows of a meal. -/
def mealIngredientRows (mdb : List MealIngredient) (mealId : Nat) : List MealIngredient :=
  mdb.filter fun mi => mi.meal = mealId

/-- Embeds Python sum() over a generator: a left fold starting at 0. -/
def pySum (l : List Rat) : Rat :=
  l.foldl (· + ·) 0

/-- Modelled from the spec: Meal.get_total_calories lives in
nutrition/models.py, which is not among the provided sources.  Spec section 4.2
defines a meal total as the sum over the meal's ingredient associations of
(quantity / 100) * the ingredient's per-100-unit fact, here applied to
calories; the repository's own test test_meal_nutrition_summary checks 200 g
of a 100 kcal/100 g ingredient yields 200 kcal. -/
def get_total_calories (rows : List MealIngredient) : Rat :=
  pySum (rows.map fun mi => mi.quantity / 100 * mi.ingredient.calories)

/-- The response body of MealViewSet.nutrition_summary. -/
structure NutritionSummary where
  total_calories : Rat
  total_proteins : Rat
  total_fats : Rat
  total_carbs : Rat
  ingredient_count : Nat
deriving DecidableEq

/-- MealViewSet.nutrition_summary (nutrition/api.py lines 82-107): total
calories via Meal.get_total_calories, and each macro as the Python sum of
(mi.quantity / 100) * mi.ingredient.[macro] over the meal's association
rows. -/
def nutrition_summary (mdb : List MealIngredient) (mealId : Nat) : NutritionSummary :=
  let rows := mealIngredientRows mdb mealId
  { total_calories := get_total_calories rows
    total_proteins := pySum (rows.map fun mi => mi.quantity / 100 * mi.ingredient.proteins)
    total_fats := pySum (rows.map fun mi => mi.quantity / 100 * mi.ingredient.fats)
    total_carbs := pySum (rows.map fun mi => mi.quantity / 100 * mi.ingredient.carbs)
    ingredient_count := rows.length }

theorem pySum_eq_sum (l : List Rat) : pySum l = l.sum :=
  List.sum_eq_foldl.symm

/-- Ingredient of the worked example: 100 kcal, 10 g protein, 5 g fat and
20 g carbohydrate per 100 g. -/
def exIngredient : Ingredient :=
  ⟨1, "oats", 100, 10, 5, 20, false, none⟩

/-- Association table of the worked example: meal 1 holds 200 g of the
example ingredient. -/
def exMealIngredients : List MealIngredient :=
  [⟨1, 1, exIngredient, 200⟩]

/-- C3: every total of the nutrition summary equals the sum over the meal's
association rows of (quantity / 100) times the per-100-unit fact; the worked
example (100 kcal, 10 g protein per 100 g at quantity 200 g) yields 200 kcal
and 20 g protein; and a meal with no association rows yields all-zero totals
rather than an error. -/
theorem c3_nutrition_summary_sums (mdb : List MealIngredient) (mealId : Nat) :
    (nutrition_summary mdb mealId).total_calories =
      ((mealIngredientRows mdb mealId).map fun mi =>
        mi.quantity / 100 * mi.ingredient.calories).sum ∧
    (nutrition_summary mdb mealId).total_proteins =
      ((mealIngredientRows mdb mealId).map fun mi =>
        mi.quantity / 100 * mi.ingredient.proteins).sum ∧
    (nutrition_summary mdb mealId).total_fats =
      ((mealIngredientRows mdb mealId).map fun mi =>
        mi.quantity / 100 * mi.ingredient.fats).sum ∧
    (nutrition_summary mdb mealId).total_carbs =
      ((mealIngredientRows mdb mealId).map fun mi =>
        mi.quantity / 100 * mi.ingredient.carbs).sum ∧
    (mealIngredientRows mdb mealId = [] →
      nutrition_summary mdb mealId = ⟨0, 0, 0, 0, 0⟩) ∧
    nutrition_summary exMealIngredients 1 = ⟨200, 20, 10, 40, 1⟩ := by
  refine ⟨pySum_eq_sum _, pySum_eq_sum _, pySum_eq_sum _, pySum_eq_sum _, ?_, ?_⟩
  · intro hempty
    simp [nutrition_summary, hempty, get_total_calories, pySum]
  · simp only [nutrition_summary, mealIngredientRows, exMealIngredients, exIngredient,
      get_total_calories, pySum, List.filter, List.map, List.foldl, List.length]
    norm_num

theorem c3_nutrition_summary_sums_witness :
    nutrition_summary ([] : List MealIngredient) 1 = ⟨0, 0, 0, 0, 0⟩ :=
  (c3_nutrition_summary_sums [] 1).2.2.2.2.1 rfl

/-- A row of the goals_bodymeasurement table: owner identity, metric name,
measurement kind, numeric value and timestamp (goals/serializers fields). -/
structure BodyMeasurement where
  id : Nat
  user : Nat
  metric : String
  measurement_type : String
  value : Rat
  timestamp : Int
deriving DecidableEq

/-- Descending-timestamp comparison used to embed order_by on -timestamp. -/
def tsDesc (a b : BodyMeasurement) : Prop :=
  b.timestamp ≤ a.timestamp

instance : DecidableRel tsDesc := fun a b =>
  inferInstanceAs (Decidable (b.timestamp ≤ a.timestamp))

instance : IsTotal BodyMeasurement tsDesc :=
  ⟨fun a b => le_total b.timestamp a.timestamp⟩

instance : IsTrans BodyMeasurement tsDesc :=
  ⟨fun _ _ _ hab hbc => le_trans hbc hab⟩

/-- Embeds queryset.order_by on -timestamp: sort rows by descending
timestamp (the database order among equal timestamps is unspecified; the spec
itself leaves the tie order undefined). -/
def orderByTimestampDesc (l : List BodyMeasurement) : List BodyMeasurement :=
  List.insertionSort tsDesc l

/-- One iteration of BodyMeasurementViewSet.latest (goals/api.py lines
143-147): filter the owner's rows for the metric, order by descending
timestamp, take the first or None. -/
def latestOne (db : List BodyMeasurement) (u : Nat) (metric : String) :
    Option BodyMeasurement :=
  (orderByTimestampDesc (db.filter fun m => m.user = u ∧ m.metric = metric)).head?

/-- BodyMeasurementViewSet.latest (goals/api.py lines 135-152): for each
requested metric in order, append the most recent matching measurement when
one exists, skipping metrics without data. -/
def latest (db : List BodyMeasurement) (u : Nat) (metrics : List String) :
    List BodyMeasurement :=
  metrics.filterMap (latestOne db u)

theorem latestOne_some_spec {db : List BodyMeasurement} {u : Nat}
    {met : String} {m : BodyMeasurement} (h : latestOne db u met = some m) :
    m ∈ db ∧ m.user = u ∧ m.metric = met ∧
    ∀ m2 ∈ db, m2.user = u → m2.metric = met → m2.timestamp ≤ m.timestamp := by
  unfold latestOne orderByTimestampDesc at h
  set fl := db.filter fun x => x.user = u ∧ x.metric = met with hfl
  have hperm : List.Perm (List.insertionSort tsDesc fl) fl :=
    List.perm_insertionSort tsDesc fl
  have hsorted : List.Sorted tsDesc (List.insertionSort tsDesc fl) :=
    List.sorted_insertionSort tsDesc fl
  cases hsort_eq : List.insertionSort tsDesc fl with
  | nil =>
    rw [hsort_eq] at h
    exact absurd h (by simp)
  | cons a rest =>
    rw [hsort_eq] at h hperm hsorted
    have ham : m = a := by simpa using h.symm
    subst ham
    have hmem_fl : m ∈ fl := hperm.mem_iff.1 (List.mem_cons_self m rest)
    have hm_filter := List.of_mem_filter hmem_fl
    have hmdb : m ∈ db := List.mem_of_mem_filter hmem_fl
    have hprops : m.user = u ∧ m.metric = met := by
      simpa using hm_filter
    refine ⟨hmdb, hprops.1, hprops.2, ?_⟩
    intro m2 hm2 hu2 hmet2
    have hm2fl : m2 ∈ fl := by
      rw [hfl]
      exact List.mem_filter.2 ⟨hm2, by simp [hu2, hmet2]⟩
    have hm2sort : m2 ∈ m :: rest := hperm.mem_iff.2 hm2fl
    rcases List.mem_cons.1 hm2sort with rfl | htail
    · exact le_refl _
    · exact (List.sorted_cons.1 hsorted).1 m2 htail

theorem latestOne_none_of_empty {db : List BodyMeasurement} {u : Nat}
    {met : String} (h : ∀ m ∈ db, ¬(m.user = u ∧ m.metric = met)) :
    latestOne db u met = none := by
  unfold latestOne orderByTimestampDesc
  have hfl : (db.filter fun x => x.user = u ∧ x.metric = met) = [] :=
    List.filter_eq_nil_iff.2 (by
      intro a ha
      simpa using h a ha)
  rw [hfl]
  rfl

theorem mem_latest_metric {db : List BodyMeasurement} {u : Nat}
    {metrics : List String} {e : BodyMeasurement}
    (he : e ∈ latest db u metrics) : e.metric ∈ metrics := by
  rcases List.mem_filterMap.1 he with ⟨met, hmet, hsome⟩
  have := (latestOne_some_spec hsome).2.2.1
  rw [this]
  exact hmet

theorem latest_countP_le (db : List BodyMeasurement) (u : Nat) :
    ∀ metrics : List String, metrics.Nodup → ∀ met : String,
      (latest db u metrics).countP (fun m => m.metric == met) ≤ 1 := by
  intro metrics
  induction metrics with
  | nil => intro _ met; simp [latest]
  | cons met0 rest ih =>
    intro hnodup met
    have hnotin : met0 ∉ rest := (List.nodup_cons.1 hnodup).1
    have hrest : rest.Nodup := (List.nodup_cons.1 hnodup).2
    show (latest db u (met0 :: rest)).countP (fun m => m.metric == met) ≤ 1
    rcases hcase : latestOne db u met0 with _ | m
    · have : latest db u (met0 :: rest) = latest db u rest := by
        simp [latest, List.filterMap_cons, hcase]
      rw [this]
      exact ih hrest met
    · have hcons : latest db u (met0 :: rest) = m :: latest db u rest := by
        simp [latest, List.filterMap_cons, hcase]
      rw [hcons]
      have hmmet : m.metric = met0 := (latestOne_some_spec hcase).2.2.1
      by_cases hmm : m.metric = met
      · have hmet0 : met = met0 := hmm ▸ hmmet
        have hzero : (latest db u rest).countP (fun x => x.metric == met) = 0 := by
          refine List.countP_eq_zero.2 ?_
          intro a ha hp
          have hamem : a.metric ∈ rest := mem_latest_metric ha
          have : a.metric = met := by simpa using hp
          exact hnotin (hmet0 ▸ this ▸ hamem)
        rw [List.countP_cons, hzero]
        simp [hmm]
      · rw [List.countP_cons]
        have : ¬((fun x => x.metric == met) m = true) := by simpa using hmm
        simp only [this, if_neg]
        simpa using ih hrest met

/-- C4 (refuted as stated): the latest operation iterates over the requested
metrics list as given; a metric requested twice produces two entries, so the
result does not have at most one entry per requested metric.  Here owner 7 has
one weight_kg measurement and requests weight_kg twice. -/
theorem c4_latest_duplicate_metric_counterexample :
    ¬ ((latest [⟨1, 7, "weight_kg", "log", 70, 100⟩] 7
        ["weight_kg", "weight_kg"]).countP (fun m => m.metric == "weight_kg") ≤ 1) := by
  decide

/-- C4 (amended): when the requested metrics list has no duplicates the result
has at most one entry per metric; every returned entry belongs to the
requesting owner, is a stored measurement, and its timestamp is greater than
or equal to that of every same-metric measurement of that owner; a requested
metric with no measurements contributes no entry. -/
theorem c4_latest_amended (db : List BodyMeasurement) (u : Nat)
    (metrics : List String) (met : String) (e : BodyMeasurement)
    (hnodup : metrics.Nodup) (he : e ∈ latest db u metrics) :
    (latest db u metrics).countP (fun m => m.metric == met) ≤ 1 ∧
    (e.user = u ∧ e ∈ db ∧
      ∀ m2 ∈ db, m2.user = u → m2.metric = e.metric → m2.timestamp ≤ e.timestamp) ∧
    ((∀ m ∈ db, ¬(m.user = u ∧ m.metric = met)) → e.metric ≠ met) := by
  rcases List.mem_filterMap.1 he with ⟨met0, hmet0, hsome⟩
  obtain ⟨hedb, heu, hemet, hemax⟩ := latestOne_some_spec hsome
  refine ⟨latest_countP_le db u metrics hnodup met, ⟨heu, hedb, ?_⟩, ?_⟩
  · intro m2 hm2 hu2 hmet2
    exact hemax m2 hm2 hu2 (hemet ▸ hmet2)
  · intro hnone hmet
    exact hnone e hedb ⟨heu, hmet ▸ hemet ▸ rfl⟩

theorem c4_latest_amended_witness :
    ((latest [⟨1, 7, "weight_kg", "log", 70, 100⟩] 7
        ["weight_kg", "body_fat_percentage"]).countP
      (fun m => m.metric == "weight_kg") ≤ 1) ∧
    ((⟨1, 7, "weight_kg", "log", 70, 100⟩ : BodyMeasurement).user = 7 ∧
      (⟨1, 7, "weight_kg", "log", 70, 100⟩ : BodyMeasurement) ∈
        [(⟨1, 7, "weight_kg", "log", 70, 100⟩ : BodyMeasurement)] ∧
      ∀ m2 ∈ [(⟨1, 7, "weight_kg", "log", 70, 100⟩ : BodyMeasurement)],
        m2.user = 7 →
        m2.metric = (⟨1, 7, "weight_kg", "log", 70, 100⟩ : BodyMeasurement).metric →
        m2.timestamp ≤ (⟨1, 7, "weight_kg", "log", 70, 100⟩ : BodyMeasurement).timestamp) ∧
    ((∀ m ∈ [(⟨1, 7, "weight_kg", "log", 70, 100⟩ : BodyMeasurement)],
        ¬(m.user = 7 ∧ m.metric = "weight_kg")) →
      (⟨1, 7, "weight_kg", "log", 70, 100⟩ : BodyMeasurement).metric ≠ "weight_kg") :=
  c4_latest_amended [⟨1, 7, "weight_kg", "log", 70, 100⟩] 7
    ["weight_kg", "body_fat_percentage"] "weight_kg"
    ⟨1, 7, "weight_kg", "log", 70, 100⟩ (by decide) (by decide)

/-- Ascending-timestamp comparison used to embed order_by on timestamp. -/
def tsAsc (a b : BodyMeasurement) : Prop :=
  a.timestamp ≤ b.timestamp

instance : DecidableRel tsAsc := fun a b =>
  inferInstanceAs (Decidable (a.timestamp ≤ b.timestamp))

instance : IsTotal BodyMeasurement tsAsc :=
  ⟨fun a b => le_total a.timestamp b.timestamp⟩

instance : IsTrans BodyMeasurement tsAsc :=
  ⟨fun _ _ _ hab hbc => le_trans hab hbc⟩

/-- Calendar date of a timestamp, as a day number (timestamps are seconds,
dates their floor division by 86400); embeds the timestamp__date lookup. -/
def tsDate (t : Int) : Int :=
  t / 86400

/-- One element of the trends response: the measurement's date, value and
kind, as built in the loop of BodyMeasurementViewSet.trends. -/
structure TrendPoint where
  date : Int
  value : Rat
  measurement_type : String
deriving DecidableEq

/-- The queryset of BodyMeasurementViewSet.trends (goals/api.py lines
172-193): the owner's rows for the metric whose timestamp date falls in the
inclusive range from today minus days to today, ordered by timestamp. -/
def trendRows (db : List BodyMeasurement) (u : Nat) (metric : String)
    (days : Int) (today : Int) : List BodyMeasurement :=
  List.insertionSort tsAsc (db.filter fun m =>
    m.user = u ∧ m.metric = metric ∧
    today - days ≤ tsDate m.timestamp ∧ tsDate m.timestamp ≤ today)

/-- BodyMeasurementViewSet.trends: the trend_data sequence of (date, value,
measurement_type) points. -/
def trends (db : List BodyMeasurement) (u : Nat) (metric : String)
    (days : Int) (today : Int) : List TrendPoint :=
  (trendRows db u metric days today).map fun m =>
    ⟨tsDate m.timestamp, m.value, m.measurement_type⟩

/-- C5: every trend point's date lies in the inclusive window from
today minus days to today; the underlying sequence is ordered by timestamp;
an owner with no matching measurements gets an empty sequence; and a negative
window (start after today) also gives an empty sequence rather than an
error. -/
theorem c5_trends_window (db : List BodyMeasurement) (u : Nat)
    (metric : String) (days today : Int) (p : TrendPoint)
    (hp : p ∈ trends db u metric days today) :
    (today - days ≤ p.date ∧ p.date ≤ today) ∧
    List.Sorted tsAsc (trendRows db u metric days today) ∧
    ((∀ m ∈ db, ¬(m.user = u ∧ m.metric = metric)) →
      trends db u metric days today = []) ∧
    (days < 0 → trends db u metric days today = []) := by
  have hperm : List.Perm
      (trendRows db u metric days today)
      (db.filter fun m =>
        m.user = u ∧ m.metric = metric ∧
        today - days ≤ tsDate m.timestamp ∧ tsDate m.timestamp ≤ today) :=
    List.perm_insertionSort tsAsc _
  refine ⟨?_, List.sorted_insertionSort tsAsc _, ?_, ?_⟩
  · rcases List.mem_map.1 hp with ⟨m, hm, rfl⟩
    have hmf := List.of_mem_filter (hperm.mem_iff.1 hm)
    have hcond : m.user = u ∧ m.metric = metric ∧
        today - days ≤ tsDate m.timestamp ∧ tsDate m.timestamp ≤ today := by
      simpa using hmf
    exact ⟨hcond.2.2.1, hcond.2.2.2⟩
  · intro hnone
    have hfl : (db.filter fun m =>
        m.user = u ∧ m.metric = metric ∧
        today - days ≤ tsDate m.timestamp ∧ tsDate m.timestamp ≤ today) = [] := by
      refine List.filter_eq_nil_iff.2 ?_
      intro a ha hdec
      have hprops : a.user = u ∧ a.metric = metric ∧
          today - days ≤ tsDate a.timestamp ∧ tsDate a.timestamp ≤ today := by
        simpa using hdec
      exact hnone a ha ⟨hprops.1, hprops.2.1⟩
    have hrows : trendRows db u metric days today = [] := by
      unfold trendRows
      rw [hfl]
      rfl
    unfold trends
    rw [hrows]
    rfl
  · intro hdays
    have hfl : (db.filter fun m =>
        m.user = u ∧ m.metric = metric ∧
        today - days ≤ tsDate m.timestamp ∧ tsDate m.timestamp ≤ today) = [] := by
      refine List.filter_eq_nil_iff.2 ?_
      intro a _ hdec
      have hprops : a.user = u ∧ a.metric = metric ∧
          today - days ≤ tsDate a.timestamp ∧ tsDate a.timestamp ≤ today := by
        simpa using hdec
      have h1 : today < today - days := by omega
      have := le_trans h1.le (le_trans hprops.2.2.1 hprops.2.2.2)
      omega
    have hrows : trendRows db u metric days today = [] := by
      unfold trendRows
      rw [hfl]
      rfl
    unfold trends
    rw [hrows]
    rfl

theorem c5_trends_window_witness :
    ((10 : Int) - 30 ≤ (⟨10, 70, "log"⟩ : TrendPoint).date ∧
      (⟨10, 70, "log"⟩ : TrendPoint).date ≤ 10) ∧
    List.Sorted tsAsc
      (trendRows [⟨1, 7, "weight_kg", "log", 70, 864000⟩] 7 "weight_kg" 30 10) ∧
    ((∀ m ∈ [(⟨1, 7, "weight_kg", "log", 70, 864000⟩ : BodyMeasurement)],
        ¬(m.user = 7 ∧ m.metric = "weight_kg")) →
      trends [⟨1, 7, "weight_kg", "log", 70, 864000⟩] 7 "weight_kg" 30 10 = []) ∧
    ((30 : Int) < 0 →
      trends [⟨1, 7, "weight_kg", "log", 70, 864000⟩] 7 "weight_kg" 30 10 = []) :=
  c5_trends_window [⟨1, 7, "weight_kg", "log", 70, 864000⟩] 7 "weight_kg" 30 10
    ⟨10, 70, "log"⟩ (by decide)

/-- Outcome of DietViewSet.active (nutrition/api.py lines 39-47):
Diet.objects.get raises DoesNotExist on zero rows — caught and turned into a
404 not-found response — and MultipleObjectsReturned on several rows, which
the view does not catch (an uncaught server error). -/
inductive DietGetResult where
  | ok (d : Diet)
  | notFound
  | serverError
deriving DecidableEq

/-- DietViewSet.active: Diet.objects.get(user=request.user, is_active=True)
wrapped in the try/except of the view. -/
def activeDietGet (db : List Diet) (u : Nat) : DietGetResult :=
  match db.filter fun d => d.user = u ∧ d.is_active = true with
  | [] => DietGetResult.notFound
  | [d] => DietGetResult.ok d
  | _ :: _ :: _ => DietGetResult.serverError

/-- C6: when owner u has exactly one active diet d the active operation
returns d, and when the owner has no active diet it returns the 404 not-found
signal — a distinct outcome from returning any diet object. -/
theorem c6_active_diet (db : List Diet) (u : Nat) (d : Diet) :
    ((db.filter fun x => x.user = u ∧ x.is_active = true) = [d] →
      activeDietGet db u = DietGetResult.ok d) ∧
    ((∀ x ∈ db, ¬(x.user = u ∧ x.is_active = true)) →
      activeDietGet db u = DietGetResult.notFound ∧
      ∀ d2 : Diet, activeDietGet db u ≠ DietGetResult.ok d2) := by
  constructor
  · intro hone
    unfold activeDietGet
    rw [hone]
  · intro hnone
    have hnil : (db.filter fun x => x.user = u ∧ x.is_active = true) = [] := by
      refine List.filter_eq_nil_iff.2 ?_
      intro a ha hdec
      exact hnone a ha (by simpa using hdec)
    constructor
    · unfold activeDietGet
      rw [hnil]
    · intro d2
      unfold activeDietGet
      rw [hnil]
      simp

theorem c6_active_diet_witness :
    activeDietGet exDiets 7 = DietGetResult.ok ⟨1, 7, "cut", true⟩ ∧
    activeDietGet exDiets 9 = DietGetResult.notFound :=
  ⟨(c6_active_diet exDiets 7 ⟨1, 7, "cut", true⟩).1 (by decide),
   ((c6_active_diet exDiets 9 ⟨1, 7, "cut", true⟩).2 (by decide)).1⟩

/-- Outcome of BodyMeasurementViewSet.bulk_create: a 201 response carrying the
created records, or a 400 response reporting the validation errors of the
offending record. -/
inductive BulkOutcome (ρ μ : Type) where
  | success (created : List μ)
  | badRequest (r : ρ)
deriving DecidableEq

/-- BodyMeasurementViewSet.bulk_create (goals/api.py lines 228-249): iterate
the submitted records in order; a valid record is saved immediately (the state
grows by that row before the next record is examined), an invalid record stops
the loop and returns a 400 naming that record's errors.  The result is the
final stored table paired with the response.  The validity predicate is a
parameter: it embeds serializer.is_valid(), whose field rules live in the
model/serializer layer, and the claim holds for every such predicate. -/
def bulk_create {ρ μ : Type} (valid : ρ → Bool) (mk : ρ → μ) (db : List μ) :
    List ρ → List μ × BulkOutcome ρ μ
  | [] => (db, BulkOutcome.success [])
  | r :: rs =>
    if valid r then
      match bulk_create valid mk (db ++ [mk r]) rs with
      | (db2, BulkOutcome.success ms) => (db2, BulkOutcome.success (mk r :: ms))
      | (db2, BulkOutcome.badRequest rb) => (db2, BulkOutcome.badRequest rb)
    else (db, BulkOutcome.badRequest r)

theorem bulk_create_all_valid {ρ μ : Type} (valid : ρ → Bool) (mk : ρ → μ) :
    ∀ (records : List ρ) (db : List μ), (∀ r ∈ records, valid r = true) →
      bulk_create valid mk db records = (db ++ records.map mk, BulkOutcome.success (records.map mk)) := by
  intro records
  induction records with
  | nil => intro db _; simp [bulk_create]
  | cons r rs ih =>
    intro db hall
    have hr : valid r = true := hall r (List.mem_cons_self r rs)
    have hrs : ∀ x ∈ rs, valid x = true := fun x hx => hall x (List.mem_cons_of_mem r hx)
    simp only [bulk_create, hr, if_pos]
    rw [ih (db ++ [mk r]) hrs]
    simp

theorem bulk_create_first_invalid {ρ μ : Type} (valid : ρ → Bool) (mk : ρ → μ) :
    ∀ (pre : List ρ) (db : List μ) (bad : ρ) (rest : List ρ),
      (∀ r ∈ pre, valid r = true) → valid bad = false →
      bulk_create valid mk db (pre ++ bad :: rest) =
        (db ++ pre.map mk, BulkOutcome.badRequest bad) := by
  intro pre
  induction pre with
  | nil =>
    intro db bad rest _ hbad
    simp [bulk_create, hbad]
  | cons p ps ih =>
    intro db bad rest hpre hbad
    have hp : valid p = true := hpre p (List.mem_cons_self p ps)
    have hps : ∀ x ∈ ps, valid x = true := fun x hx => hpre x (List.mem_cons_of_mem p hx)
    simp only [List.cons_append, bulk_create, hp, if_pos, List.append_eq]
    rw [ih (db ++ [mk p]) bad rest hps hbad]
    simp

/-- C7: bulk_create validates the submitted records in order — when the input
is a valid prefix, an invalid record and a remainder, the response is the 400
for that record, the remainder is never examined, and the rows created from
the prefix remain persisted (not rolled back); when every record is valid, all
are created in order and returned. -/
theorem c7_bulk_create_semantics {ρ μ : Type} (valid : ρ → Bool) (mk : ρ → μ)
    (db : List μ) (pre rest records : List ρ) (bad : ρ)
    (hpre : ∀ r ∈ pre, valid r = true) (hbad : valid bad = false)
    (hall : ∀ r ∈ records, valid r = true) :
    bulk_create valid mk db (pre ++ bad :: rest) =
      (db ++ pre.map mk, BulkOutcome.badRequest bad) ∧
    bulk_create valid mk db records =
      (db ++ records.map mk, BulkOutcome.success (records.map mk)) :=
  ⟨bulk_create_first_invalid valid mk pre db bad rest hpre hbad,
   bulk_create_all_valid valid mk records db hall⟩

/-- Raw measurement record as submitted to bulk_create, before the owner id is
attached. -/
structure RawMeasurement where
  metric : String
  measurement_type : String
  value : Rat
  timestamp : Int
deriving DecidableEq

/-- Attaches the requesting owner to a submitted record, as
measurement_data['user'] = request.user.id followed by serializer.save(). -/
def mkMeasurement (u : Nat) (r : RawMeasurement) : BodyMeasurement :=
  ⟨0, u, r.metric, r.measurement_type, r.value, r.timestamp⟩

theorem c7_bulk_create_semantics_witness :
    bulk_create (fun r => r.metric == "weight_kg") (mkMeasurement 7) []
        [⟨"weight_kg", "log", 70, 1⟩, ⟨"bogus", "log", 1, 2⟩, ⟨"weight_kg", "log", 71, 3⟩] =
      ([mkMeasurement 7 ⟨"weight_kg", "log", 70, 1⟩],
        BulkOutcome.badRequest ⟨"bogus", "log", 1, 2⟩) ∧
    bulk_create (fun r => r.metric == "weight_kg") (mkMeasurement 7) []
        [⟨"weight_kg", "log", 70, 1⟩, ⟨"weight_kg", "log", 71, 3⟩] =
      ([mkMeasurement 7 ⟨"weight_kg", "log", 70, 1⟩,
        mkMeasurement 7 ⟨"weight_kg", "log", 71, 3⟩],
        BulkOutcome.success [mkMeasurement 7 ⟨"weight_kg", "log", 70, 1⟩,
          mkMeasurement 7 ⟨"weight_kg", "log", 71, 3⟩]) := by
  have h := c7_bulk_create_semantics (fun r : RawMeasurement => r.metric == "weight_kg")
    (mkMeasurement 7) []
    [⟨"weight_kg", "log", 70, 1⟩] [⟨"weight_kg", "log", 71, 3⟩]
    [⟨"weight_kg", "log", 70, 1⟩, ⟨"weight_kg", "log", 71, 3⟩]
    ⟨"bogus", "log", 1, 2⟩ (by decide) (by decide) (by decide)
  exact ⟨h.1, h.2⟩

/-- The fixed metric triple of GoalViewSet.progress (goals/api.py line 97),
used for every goal no matter its category. -/
def progressMetrics : List String :=
  ["weight_kg", "body_fat_percentage", "muscle_mass_percentage"]

/-- The measurements queryset of GoalViewSet.progress: the owner's rows whose
metric is in the fixed triple, ordered by timestamp. -/
def progressRows (db : List BodyMeasurement) (u : Nat) : List BodyMeasurement :=
  List.insertionSort tsAsc
    (db.filter fun m => m.user = u ∧ m.metric ∈ progressMetrics)

/-- Measurement-derived part of the progress response: either the sentinel
no-data answer (count zero, the string payload about no measurements) or the
first measurement, latest measurement, count and days since start. -/
inductive ProgressResult where
  | noData (measurements_count : Nat)
  | data (first latest : BodyMeasurement) (measurements_count : Nat)
      (days_since_start : Int)
deriving DecidableEq

/-- Full progress response: the serialized goal is echoed alongside the
measurement-derived part. -/
structure ProgressResponse where
  goal : Goal
  result : ProgressResult
deriving DecidableEq

/-- GoalViewSet.progress (goals/api.py lines 89-118): the owner's measurements
for the fixed metric triple ordered by timestamp; the sentinel no-data
response when none exist, otherwise first/last, the count and the day delta
between first and last. -/
def progress (db : List BodyMeasurement) (u : Nat) (g : Goal) : ProgressResponse :=
  match (progressRows db u).head?, (progressRows db u).getLast? with
  | some f, some l =>
    ⟨g, ProgressResult.data f l (progressRows db u).length
      (tsDate l.timestamp - tsDate f.timestamp)⟩
  | _, _ => ⟨g, ProgressResult.noData 0⟩

theorem sorted_head_min {l : List BodyMeasurement} {f : BodyMeasurement}
    (hs : List.Sorted tsAsc l) (hf : l.head? = some f) :
    ∀ x ∈ l, f.timestamp ≤ x.timestamp := by
  cases l with
  | nil => exact absurd hf (by simp)
  | cons a t =>
    have hfa : f = a := by simpa using hf.symm
    subst hfa
    intro x hx
    rcases List.mem_cons.1 hx with rfl | hxt
    · exact le_refl _
    · exact (List.sorted_cons.1 hs).1 x hxt

theorem sorted_getLast_max {l : List BodyMeasurement} {m : BodyMeasurement}
    (hs : List.Sorted tsAsc l) (hm : l.getLast? = some m) :
    ∀ x ∈ l, x.timestamp ≤ m.timestamp := by
  induction l with
  | nil => exact absurd hm (by simp)
  | cons a t ih =>
    cases t with
    | nil =>
      have hma : m = a := by simpa using hm.symm
      subst hma
      intro x hx
      rcases List.mem_cons.1 hx with rfl | hxt
      · exact le_refl _
      · exact absurd hxt (by simp)
    | cons b t2 =>
      have hm2 : (b :: t2).getLast? = some m := hm
      have hsc := List.sorted_cons.1 hs
      have hmem : m ∈ b :: t2 := List.mem_of_mem_getLast? (by simp [hm2])
      intro x hx
      rcases List.mem_cons.1 hx with rfl | hxt
      · exact hsc.1 m hmem
      · exact ih hsc.2 hm2 x hxt

theorem progress_data_inv {db : List BodyMeasurement} {u : Nat} {g : Goal}
    {f l : BodyMeasurement} {c : Nat} {dss : Int}
    (hdata : (progress db u g).result = ProgressResult.data f l c dss) :
    (progressRows db u).head? = some f ∧ (progressRows db u).getLast? = some l := by
  unfold progress at hdata
  cases hh : (progressRows db u).head? with
  | none =>
    rw [hh] at hdata
    simp at hdata
  | some f0 =>
    cases hl : (progressRows db u).getLast? with
    | none =>
      rw [hh, hl] at hdata
      simp at hdata
    | some l0 =>
      rw [hh, hl] at hdata
      simp only [ProgressResult.data.injEq] at hdata
      exact ⟨congrArg some hdata.1, congrArg some hdata.2.1⟩

/-- C8: the measurement-derived part of the progress response is the same for
any two goals of the owner — in particular it ignores the goal's category;
when the owner has no measurement in the fixed triple the sentinel no-data
answer with count zero is returned rather than a failure; and whenever a
data-form result is returned, first and latest are stored measurements of the
owner drawn from the fixed metric triple, with first's timestamp minimal and
latest's maximal among all such measurements. -/
theorem c8_progress_fixed_triple (db : List BodyMeasurement) (u : Nat)
    (g g2 : Goal) :
    (progress db u g).result = (progress db u g2).result ∧
    ((∀ m ∈ db, ¬(m.user = u ∧ m.metric ∈ progressMetrics)) →
      (progress db u g).result = ProgressResult.noData 0) ∧
    (∀ (f l : BodyMeasurement) (c : Nat) (dss : Int),
      (progress db u g).result = ProgressResult.data f l c dss →
      f ∈ db ∧ f.user = u ∧ f.metric ∈ progressMetrics ∧
      l ∈ db ∧ l.user = u ∧ l.metric ∈ progressMetrics ∧
      ∀ m ∈ db, m.user = u → m.metric ∈ progressMetrics →
        f.timestamp ≤ m.timestamp ∧ m.timestamp ≤ l.timestamp) := by
  have hindep : ∀ gx : Goal, (progress db u gx).result = (progress db u g).result := by
    intro gx
    unfold progress
    cases hh : (progressRows db u).head? <;> cases hl : (progressRows db u).getLast? <;> rfl
  have hperm : List.Perm (progressRows db u)
      (db.filter fun m => m.user = u ∧ m.metric ∈ progressMetrics) :=
    List.perm_insertionSort tsAsc _
  have hsorted : List.Sorted tsAsc (progressRows db u) :=
    List.sorted_insertionSort tsAsc _
  refine ⟨(hindep g2).symm, ?_, ?_⟩
  · intro hnone
    have hfl : (db.filter fun m => m.user = u ∧ m.metric ∈ progressMetrics) = [] := by
      refine List.filter_eq_nil_iff.2 ?_
      intro a ha hdec
      exact hnone a ha (by simpa using hdec)
    have hrows : progressRows db u = [] := by
      unfold progressRows
      rw [hfl]
      rfl
    unfold progress
    rw [hrows]
    rfl
  · intro f l c dss hdata
    obtain ⟨hh, hl⟩ := progress_data_inv hdata
    have hfmem : f ∈ progressRows db u := List.mem_of_mem_head? (by simp [hh])
    have hlmem : l ∈ progressRows db u := List.mem_of_mem_getLast? (by simp [hl])
    have hffil := List.of_mem_filter (hperm.mem_iff.1 hfmem)
    have hlfil := List.of_mem_filter (hperm.mem_iff.1 hlmem)
    have hfprops : f.user = u ∧ f.metric ∈ progressMetrics := by simpa using hffil
    have hlprops : l.user = u ∧ l.metric ∈ progressMetrics := by simpa using hlfil
    refine ⟨List.mem_of_mem_filter (hperm.mem_iff.1 hfmem), hfprops.1, hfprops.2,
      List.mem_of_mem_filter (hperm.mem_iff.1 hlmem), hlprops.1, hlprops.2, ?_⟩
    intro m hm hmu hmmet
    have hmrows : m ∈ progressRows db u := by
      refine hperm.mem_iff.2 (List.mem_filter.2 ⟨hm, by simp [hmu, hmmet]⟩)
    exact ⟨sorted_head_min hsorted hh m hmrows, sorted_getLast_max hsorted hl m hmrows⟩

theorem c8_progress_fixed_triple_witness :
    ((progress [⟨1, 7, "weight_kg", "log", 70, 100⟩] 7
        ⟨1, 7, "weight_loss", 0, "", true⟩).result =
      (progress [⟨1, 7, "weight_kg", "log", 70, 100⟩] 7
        ⟨2, 7, "endurance", 9, "x", false⟩).result) ∧
    ((progress ([] : List BodyMeasurement) 7
        ⟨1, 7, "weight_loss", 0, "", true⟩).result = ProgressResult.noData 0) ∧
    ((⟨1, 7, "weight_kg", "log", 70, 100⟩ : BodyMeasurement) ∈
        [(⟨1, 7, "weight_kg", "log", 70, 100⟩ : BodyMeasurement)] ∧
      (⟨1, 7, "weight_kg", "log", 70, 100⟩ : BodyMeasurement).user = 7 ∧
      (⟨1, 7, "weight_kg", "log", 70, 100⟩ : BodyMeasurement).metric ∈ progressMetrics ∧
      (⟨1, 7, "weight_kg", "log", 70, 100⟩ : BodyMeasurement) ∈
        [(⟨1, 7, "weight_kg", "log", 70, 100⟩ : BodyMeasurement)] ∧
      (⟨1, 7, "weight_kg", "log", 70, 100⟩ : BodyMeasurement).user = 7 ∧
      (⟨1, 7, "weight_kg", "log", 70, 100⟩ : BodyMeasurement).metric ∈ progressMetrics ∧
      ∀ m ∈ [(⟨1, 7, "weight_kg", "log", 70, 100⟩ : BodyMeasurement)],
        m.user = 7 → m.metric ∈ progressMetrics →
        (⟨1, 7, "weight_kg", "log", 70, 100⟩ : BodyMeasurement).timestamp ≤ m.timestamp ∧
        m.timestamp ≤ (⟨1, 7, "weight_kg", "log", 70, 100⟩ : BodyMeasurement).timestamp) :=
  ⟨(c8_progress_fixed_triple [⟨1, 7, "weight_kg", "log", 70, 100⟩] 7
      ⟨1, 7, "weight_loss", 0, "", true⟩ ⟨2, 7, "endurance", 9, "x", false⟩).1,
   (c8_progress_fixed_triple ([] : List BodyMeasurement) 7
      ⟨1, 7, "weight_loss", 0, "", true⟩ ⟨1, 7, "weight_loss", 0, "", true⟩).2.1
      (by decide),
   (c8_progress_fixed_triple [⟨1, 7, "weight_kg", "log", 70, 100⟩] 7
      ⟨1, 7, "weight_loss", 0, "", true⟩ ⟨2, 7, "endurance", 9, "x", false⟩).2.2
      ⟨1, 7, "weight_kg", "log", 70, 100⟩ ⟨1, 7, "weight_kg", "log", 70, 100⟩ 1 0
      (by decide)⟩

/-- A row of the nutrition_meal table: the owning diet (FK) and name; a meal
has no direct owner column, ownership goes through its diet. -/
structure Meal where
  id : Nat
  diet : Nat
  name : String
deriving DecidableEq

/-- A row of the nutrition_mealrecord table: owner identity, optional meal
reference and timestamp. -/
structure MealRecord where
  id : Nat
  user : Nat
  meal : Option Nat
  timestamp : Int
deriving DecidableEq

/-- A row of the nutrition_mealpreference table: owner identity, ingredient
reference and preference category. -/
structure MealPreference where
  id : Nat
  user : Nat
  ingredient : Nat
  preference_type : String
deriving DecidableEq

/-- Outcome of a detail request: the entity, a 404 not-found, or a 403
forbidden (the last never produced by owner-scoped lookups). -/
inductive DetailResult (α : Type) where
  | found (a : α)
  | notFound
  | forbidden
deriving DecidableEq

/-- Modelled from the spec: the framework detail handler (DRF get_object,
outside this repository) resolves the pk against the queryset returned by the
viewset's get_queryset and raises a 404 when no row matches; it never raises a
403 for a missing row.  The per-viewset owner filtering itself is source code
(each get_queryset under src/). -/
def detailLookup {α : Type} (idOf : α → Nat) (qs : List α) (pk : Nat) :
    DetailResult α :=
  match qs.find? fun x => idOf x = pk with
  | some x => DetailResult.found x
  | none => DetailResult.notFound

/-- GoalViewSet.get_queryset (goals/api.py lines 21-22). -/
def goalQueryset (db : List Goal) (u : Nat) : List Goal :=
  db.filter fun g => g.user = u

/-- BodyMeasurementViewSet.get_queryset (goals/api.py lines 129-130). -/
def measurementQueryset (db : List BodyMeasurement) (u : Nat) : List BodyMeasurement :=
  db.filter fun m => m.user = u

/-- DietViewSet.get_queryset (nutrition/api.py lines 24-25). -/
def dietQueryset (db : List Diet) (u : Nat) : List Diet :=
  db.filter fun d => d.user = u

/-- MealViewSet.get_queryset (nutrition/api.py lines 59-60): meals whose diet
row belongs to the requesting user (the diet__user join). -/
def mealQueryset (ddb : List Diet) (db : List Meal) (u : Nat) : List Meal :=
  db.filter fun m => ∃ d ∈ ddb, d.id = m.diet ∧ d.user = u

/-- MealRecordViewSet.get_queryset (nutrition/api.py lines 174-175). -/
def mealRecordQueryset (db : List MealRecord) (u : Nat) : List MealRecord :=
  db.filter fun r => r.user = u

/-- MealPreferenceViewSet.get_queryset (nutrition/api.py lines 233-234). -/
def mealPreferenceQueryset (db : List MealPreference) (u : Nat) : List MealPreference :=
  db.filter fun p => p.user = u

theorem detailLookup_notFound {α : Type} (idOf : α → Nat) (qs : List α)
    (pk : Nat) (h : ∀ x ∈ qs, idOf x ≠ pk) :
    detailLookup idOf qs pk = DetailResult.notFound := by
  have hnone : (qs.find? fun x => idOf x = pk) = none :=
    List.find?_eq_none.2 fun x hx => by simpa using h x hx
  unfold detailLookup
  rw [hnone]

theorem detailLookup_ne_forbidden {α : Type} (idOf : α → Nat) (qs : List α)
    (pk : Nat) : detailLookup idOf qs pk ≠ DetailResult.forbidden := by
  unfold detailLookup
  cases qs.find? fun x => idOf x = pk <;> simp

/-- C9: a detail request by owner A for an entity owned by a different owner B
yields the not-found result — never the forbidden result — for each
identity-scoped entity type: goals, measurements, diets, meals (owned through
their diet), meal records and preferences.  Primary keys are assumed unique
per table. -/
theorem c9_cross_owner_not_found
    (A B : Nat) (hAB : A ≠ B)
    (gdb : List Goal) (mdb : List BodyMeasurement) (ddb : List Diet)
    (meals : List Meal) (rdb : List MealRecord) (pdb : List MealPreference)
    (g : Goal) (m : BodyMeasurement) (d : Diet) (ml : Meal) (dml : Diet)
    (r : MealRecord) (p : MealPreference)
    (hgB : g.user = B) (hgid : ∀ x ∈ gdb, x.id = g.id → x = g)
    (hmB : m.user = B) (hmid : ∀ x ∈ mdb, x.id = m.id → x = m)
    (hdB : d.user = B) (hdid : ∀ x ∈ ddb, x.id = d.id → x = d)
    (hdmlid : dml.id = ml.diet) (hdmlB : dml.user = B)
    (hmlid : ∀ x ∈ meals, x.id = ml.id → x = ml)
    (hddup : ∀ x ∈ ddb, x.id = dml.id → x = dml)
    (hrB : r.user = B) (hrid : ∀ x ∈ rdb, x.id = r.id → x = r)
    (hpB : p.user = B) (hpid : ∀ x ∈ pdb, x.id = p.id → x = p) :
    (detailLookup Goal.id (goalQueryset gdb A) g.id = DetailResult.notFound ∧
      detailLookup Goal.id (goalQueryset gdb A) g.id ≠ DetailResult.forbidden) ∧
    (detailLookup BodyMeasurement.id (measurementQueryset mdb A) m.id =
        DetailResult.notFound ∧
      detailLookup BodyMeasurement.id (measurementQueryset mdb A) m.id ≠
        DetailResult.forbidden) ∧
    (detailLookup Diet.id (dietQueryset ddb A) d.id = DetailResult.notFound ∧
      detailLookup Diet.id (dietQueryset ddb A) d.id ≠ DetailResult.forbidden) ∧
    (detailLookup Meal.id (mealQueryset ddb meals A) ml.id = DetailResult.notFound ∧
      detailLookup Meal.id (mealQueryset ddb meals A) ml.id ≠ DetailResult.forbidden) ∧
    (detailLookup MealRecord.id (mealRecordQueryset rdb A) r.id =
        DetailResult.notFound ∧
      detailLookup MealRecord.id (mealRecordQueryset rdb A) r.id ≠
        DetailResult.forbidden) ∧
    (detailLookup MealPreference.id (mealPreferenceQueryset pdb A) p.id =
        DetailResult.notFound ∧
      detailLookup MealPreference.id (mealPreferenceQueryset pdb A) p.id ≠
        DetailResult.forbidden) := by
  refine ⟨⟨?_, detailLookup_ne_forbidden _ _ _⟩, ⟨?_, detailLookup_ne_forbidden _ _ _⟩,
    ⟨?_, detailLookup_ne_forbidden _ _ _⟩, ⟨?_, detailLookup_ne_forbidden _ _ _⟩,
    ⟨?_, detailLookup_ne_forbidden _ _ _⟩, ⟨?_, detailLookup_ne_forbidden _ _ _⟩⟩
  · refine detailLookup_notFound _ _ _ ?_
    intro x hx hxid
    have hxdb := List.mem_of_mem_filter hx
    have hxA : x.user = A := by simpa using List.of_mem_filter hx
    have hxg : x = g := hgid x hxdb hxid
    exact hAB ((hxg ▸ hxA).symm.trans hgB)
  · refine detailLookup_notFound _ _ _ ?_
    intro x hx hxid
    have hxdb := List.mem_of_mem_filter hx
    have hxA : x.user = A := by simpa using List.of_mem_filter hx
    have hxm : x = m := hmid x hxdb hxid
    exact hAB ((hxm ▸ hxA).symm.trans hmB)
  · refine detailLookup_notFound _ _ _ ?_
    intro x hx hxid
    have hxdb := List.mem_of_mem_filter hx
    have hxA : x.user = A := by simpa using List.of_mem_filter hx
    have hxd : x = d := hdid x hxdb hxid
    exact hAB ((hxd ▸ hxA).symm.trans hdB)
  · refine detailLookup_notFound _ _ _ ?_
    intro x hx hxid
    have hxdb := List.mem_of_mem_filter hx
    have hxjoin : ∃ d2 ∈ ddb, d2.id = x.diet ∧ d2.user = A := by
      simpa using List.of_mem_filter hx
    have hxml : x = ml := hmlid x hxdb hxid
    subst hxml
    rcases hxjoin with ⟨d2, hd2, hd2id, hd2A⟩
    have hd2dml : d2 = dml := hddup d2 hd2 (hd2id.trans hdmlid.symm)
    exact hAB ((hd2dml ▸ hd2A).symm.trans hdmlB)
  · refine detailLookup_notFound _ _ _ ?_
    intro x hx hxid
    have hxdb := List.mem_of_mem_filter hx
    have hxA : x.user = A := by simpa using List.of_mem_filter hx
    have hxr : x = r := hrid x hxdb hxid
    exact hAB ((hxr ▸ hxA).symm.trans hrB)
  · refine detailLookup_notFound _ _ _ ?_
    intro x hx hxid
    have hxdb := List.mem_of_mem_filter hx
    have hxA : x.user = A := by simpa using List.of_mem_filter hx
    have hxp : x = p := hpid x hxdb hxid
    exact hAB ((hxp ▸ hxA).symm.trans hpB)

theorem c9_cross_owner_not_found_witness :
    ((detailLookup Goal.id (goalQueryset [⟨1, 8, "strength", 0, "", true⟩] 7) 1 =
        DetailResult.notFound ∧
      detailLookup Goal.id (goalQueryset [⟨1, 8, "strength", 0, "", true⟩] 7) 1 ≠
        DetailResult.forbidden) ∧
    (detailLookup BodyMeasurement.id
        (measurementQueryset [⟨1, 8, "weight_kg", "log", 70, 5⟩] 7) 1 =
        DetailResult.notFound ∧
      detailLookup BodyMeasurement.id
        (measurementQueryset [⟨1, 8, "weight_kg", "log", 70, 5⟩] 7) 1 ≠
        DetailResult.forbidden) ∧
    (detailLookup Diet.id (dietQueryset [⟨3, 8, "cut", true⟩] 7) 3 =
        DetailResult.notFound ∧
      detailLookup Diet.id (dietQueryset [⟨3, 8, "cut", true⟩] 7) 3 ≠
        DetailResult.forbidden) ∧
    (detailLookup Meal.id (mealQueryset [⟨3, 8, "cut", true⟩] [⟨4, 3, "lunch"⟩] 7) 4 =
        DetailResult.notFound ∧
      detailLookup Meal.id (mealQueryset [⟨3, 8, "cut", true⟩] [⟨4, 3, "lunch"⟩] 7) 4 ≠
        DetailResult.forbidden) ∧
    (detailLookup MealRecord.id (mealRecordQueryset [⟨5, 8, none, 0⟩] 7) 5 =
        DetailResult.notFound ∧
      detailLookup MealRecord.id (mealRecordQueryset [⟨5, 8, none, 0⟩] 7) 5 ≠
        DetailResult.forbidden) ∧
    (detailLookup MealPreference.id
        (mealPreferenceQueryset [⟨6, 8, 1, "like"⟩] 7) 6 = DetailResult.notFound ∧
      detailLookup MealPreference.id
        (mealPreferenceQueryset [⟨6, 8, 1, "like"⟩] 7) 6 ≠ DetailResult.forbidden)) :=
  c9_cross_owner_not_found 7 8 (by decide)
    [⟨1, 8, "strength", 0, "", true⟩] [⟨1, 8, "weight_kg", "log", 70, 5⟩]
    [⟨3, 8, "cut", true⟩] [⟨4, 3, "lunch"⟩] [⟨5, 8, none, 0⟩] [⟨6, 8, 1, "like"⟩]
    ⟨1, 8, "strength", 0, "", true⟩ ⟨1, 8, "weight_kg", "log", 70, 5⟩
    ⟨3, 8, "cut", true⟩ ⟨4, 3, "lunch"⟩ ⟨3, 8, "cut", true⟩ ⟨5, 8, none, 0⟩
    ⟨6, 8, 1, "like"⟩
    (by decide) (by decide) (by decide) (by decide) (by decide) (by decide)
    (by decide) (by decide) (by decide) (by decide)
    (by decide) (by decide) (by decide) (by decide)

/-- IngredientViewSet.get_queryset (nutrition/api.py lines 119-123): public
ingredients or the requesting user's own, via Q(is_personal=False) |
Q(created_by=user). -/
def ingredientQueryset (db : List Ingredient) (u : Nat) : List Ingredient :=
  db.filter fun i => i.is_personal = false ∨ i.created_by = some u

/-- IngredientViewSet.perform_create (nutrition/api.py lines 125-126):
serializer.save(created_by=request.user, is_personal=True) appends the
submitted ingredient with creator and personal flag overridden by the server,
whatever the client supplied for those fields. -/
def ingredientPerformCreate (db : List Ingredient) (u : Nat) (i : Ingredient) :
    List Ingredient :=
  db ++ [{ i with created_by := some u, is_personal := true }]

/-- C10: creating an ingredient appends a row that is marked personal and
attributed to the requesting user regardless of the client-supplied values of
those two fields, and the list an authenticated user sees contains exactly the
public ingredients together with that user's own personal ingredients. -/
theorem c10_ingredient_personal_scope (db : List Ingredient) (u : Nat)
    (i x : Ingredient) :
    (∀ y ∈ ingredientPerformCreate db u i,
      y ∈ db ∨ (y.is_personal = true ∧ y.created_by = some u)) ∧
    ({ i with created_by := some u, is_personal := true } ∈
      ingredientPerformCreate db u i) ∧
    (x ∈ ingredientQueryset db u ↔
      x ∈ db ∧ (x.is_personal = false ∨
        (x.is_personal = true ∧ x.created_by = some u))) := by
  refine ⟨?_, ?_, ?_⟩
  · intro y hy
    rcases List.mem_append.1 hy with hdb | hnew
    · exact Or.inl hdb
    · right
      have : y = { i with created_by := some u, is_personal := true } := by
        simpa using hnew
      rw [this]
      exact ⟨rfl, rfl⟩
  · exact List.mem_append.2 (Or.inr (by simp))
  · constructor
    · intro hx
      have hxdb := List.mem_of_mem_filter hx
      have hcond : x.is_personal = false ∨ x.created_by = some u := by
        simpa using List.of_mem_filter hx
      refine ⟨hxdb, ?_⟩
      rcases hcond with hp | hc
      · exact Or.inl hp
      · rcases Bool.eq_false_or_eq_true x.is_personal with ht | hf
        · exact Or.inr ⟨ht, hc⟩
        · exact Or.inl hf
    · intro hx
      refine List.mem_filter.2 ⟨hx.1, ?_⟩
      rcases hx.2 with hp | ⟨_, hc⟩
      · simp [hp]
      · simp [hc]

theorem c10_ingredient_personal_scope_witness :
    (∀ y ∈ ingredientPerformCreate [exIngredient] 7
        ⟨2, "salt", 0, 0, 0, 0, false, none⟩,
      y ∈ [exIngredient] ∨ (y.is_personal = true ∧ y.created_by = some 7)) ∧
    ({ (⟨2, "salt", 0, 0, 0, 0, false, none⟩ : Ingredient) with
        created_by := some 7, is_personal := true } ∈
      ingredientPerformCreate [exIngredient] 7 ⟨2, "salt", 0, 0, 0, 0, false, none⟩) ∧
    (exIngredient ∈ ingredientQueryset [exIngredient] 7 ↔
      exIngredient ∈ [exIngredient] ∧ (exIngredient.is_personal = false ∨
        (exIngredient.is_personal = true ∧ exIngredient.created_by = some 7))) :=
  c10_ingredient_personal_scope [exIngredient] 7
    ⟨2, "salt", 0, 0, 0, 0, false, none⟩ exIngredient

end Fithub
